import Mathlib

/-!
Verification development for the teams-bot request-routing pipeline.

The repository is TypeScript/JavaScript; the definitions below are a shallow
embedding of its components:

  * `ConversationHistory`  — src/src/conversationHistory.ts
  * `ToolCache`            — src/src/toolCache.ts
  * `ContextProvider`      — src/unnamed/part_001 (contextProvider.ts)
  * `Planner`              — src/dist/planner.js
  * `PlanExecutor`         — src/src/planExecutor.ts
  * `Router`               — src/src/router.ts

Conventions used throughout the embedding:

  * JavaScript values flowing through untyped positions (entity records, tool
    call arguments, parsed model responses) are modelled by the inductive
    `JVal`; JS objects are association lists in insertion order (JS object
    literals and `Map`s preserve insertion order for string keys; no key used
    here is integer-like).
  * `Date.now()` is modelled by an explicit `now : Int` argument, constant
    within a single operation.
  * Remote I/O (the MCP resource/tool server, the model endpoint) is modelled
    by oracle parameters giving each call's outcome, and operations return a
    trace of the network calls they issued, in order.
  * JS numbers in the fast-path confidence arithmetic are modelled by the
    exact rational type `Q` below. Every constant involved (0.4, 0.5, 0.6,
    0.7, 0.9, ratios of small word counts) is exactly representable, and
    `3/5 === 0.6` etc. hold in IEEE double arithmetic, so the rational model
    agrees with the JS comparisons performed by the code.
-/

/-- A JavaScript/JSON value. Objects keep fields in insertion order. -/
inductive JVal where
  | str (s : String)
  | num (n : Int)
  | bool (b : Bool)
  | null
  | arr (items : List JVal)
  | obj (fields : List (String × JVal))

/-- JS truthiness of a defined value (`undefined` is handled at use sites via
`Option`). `NaN` and floats do not occur in the embedded code paths. -/
def jsTruthy : JVal → Bool
  | .str s => s ≠ ""
  | .num n => n ≠ 0
  | .bool b => b
  | .null => false
  | .arr _ => true
  | .obj _ => true

/-- JS truthiness of a possibly-`undefined` value. -/
def jsTruthyOpt : Option JVal → Bool
  | none => false
  | some v => jsTruthy v

/-- `typeof v === 'object'` — true for objects, arrays and `null`. -/
def jsTypeofObject : JVal → Bool
  | .obj _ => true
  | .arr _ => true
  | .null => true
  | _ => false

/-- `typeof v === 'string'`. -/
def jsTypeofString : JVal → Bool
  | .str _ => true
  | _ => false

/-- `typeof v === 'number'`. -/
def jsTypeofNumber : JVal → Bool
  | .num _ => true
  | _ => false

/-- `typeof v === 'boolean'`. -/
def jsTypeofBoolean : JVal → Bool
  | .bool _ => true
  | _ => false

/-- Property access `v[key]`, `none` standing for `undefined`. Property access
on primitives yields `undefined`; access on `null`/`undefined` throws in JS,
but every embedded use site turns both outcomes into the same error path, so
it is modelled as `undefined` as well (noted at each use site). -/
def jsGet : JVal → String → Option JVal
  | .obj fields, key => fields.lookup key
  | _, _ => none

/-- `Object.entries(v)` for the values that reach it in the embedded code
(objects; primitives give `[]`). -/
def jsEntries : JVal → List (String × JVal)
  | .obj fields => fields
  | _ => []

/-- `String(v)` on primitives (only reached with strings and `''` defaults in
the embedded code). -/
def jsToString : JVal → String
  | .str s => s
  | .num n => toString n
  | .bool b => if b then "true" else "false"
  | .null => "null"
  | .arr _ => ""
  | .obj _ => "[object Object]"

/-- `obj[key] = v` on an association-list object: updates in place if the key
exists (keeping its position, as JS objects and `Map`s do), else appends. -/
def jsObjSet : List (String × JVal) → String → JVal → List (String × JVal)
  | [], key, v => [(key, v)]
  | (k, w) :: rest, key, v =>
      if k = key then (k, v) :: rest else (k, w) :: jsObjSet rest key v

/-- First truthy value among a chain `a || b || ...`, as `Option`. -/
def jsFirstTruthy : List (Option JVal) → Option JVal
  | [] => none
  | o :: rest => if jsTruthyOpt o then o else jsFirstTruthy rest

/-- `a || b` on strings (`''` is falsy, `undefined` env vars are modelled as
`''`). -/
def jsOrStr (a b : String) : String := if a ≠ "" then a else b

/-! ## Character and string helpers (JS semantics, structural recursion) -/

/-- `\s` for the ASCII whitespace that can occur in the embedded strings. -/
def isJsWs (c : Char) : Bool :=
  c = ' ' || c = '\t' || c = '\n' || c = '\r' || c = '\x0b' || c = '\x0c'

/-- A character matched by `.` (anything but a line terminator). -/
def isDotChar (c : Char) : Bool := c ≠ '\n' && c ≠ '\r'

def lowerChars (cs : List Char) : List Char := cs.map Char.toLower

/-- `s.toLowerCase()` (inputs are ASCII). -/
def jsToLower (s : String) : String := ⟨lowerChars s.data⟩

/-- `s.trim()`. -/
def jsTrim (s : String) : String :=
  ⟨((s.data.dropWhile isJsWs).reverse.dropWhile isJsWs).reverse⟩

/-- Does `cs` start with `pat`? -/
def leadsWith : List Char → List Char → Bool
  | [], _ => true
  | _ :: _, [] => false
  | p :: ps, c :: cs => p = c && leadsWith ps cs

/-- `s.includes(sub)` on char lists. `[]` is a substring of everything, as in
JS (`"x".includes("")` is `true`). -/
def listContains (cs sub : List Char) : Bool :=
  leadsWith sub cs ||
    match cs with
    | [] => false
    | _ :: rest => listContains rest sub

/-- `s.includes(sub)` on strings. -/
def jsIncludes (s sub : String) : Bool := listContains s.data sub.data

/-- `s.endsWith(suffix)`. -/
def jsEndsWith (s suffix : String) : Bool :=
  leadsWith suffix.data.reverse s.data.reverse

/-- Split on every separator character (the exact-JS split is recovered by
`dropInnerEmpties`, collapsing runs of separators). -/
def splitEachChar (p : Char → Bool) : List Char → List (List Char)
  | [] => [[]]
  | c :: cs =>
      match splitEachChar p cs with
      | [] => [[]]
      | tok :: rest => if p c then [] :: tok :: rest else (c :: tok) :: rest

/-- Drop empty pieces that are strictly interior (the last piece is kept even
when empty). -/
def keepOnlyLastEmpty : List (List Char) → List (List Char)
  | [] => []
  | [x] => [x]
  | x :: y :: rest =>
      if x = [] then keepOnlyLastEmpty (y :: rest)
      else x :: keepOnlyLastEmpty (y :: rest)

/-- JS `String.prototype.split` with a one-or-more character-class regex
(e.g. `/\s+/`): runs of separator characters are single separators, and
empty pieces survive only at the two boundaries — `"a  b".split(/\s+/)` is
`["a","b"]`, `" a"` gives `["","a"]`, `"a "` gives `["a",""]`, `""` gives
`[""]`. -/
def jsSplitOnRuns (p : Char → Bool) (s : String) : List String :=
  (match splitEachChar p s.data with
    | [] => []
    | first :: rest => first :: keepOnlyLastEmpty rest).map (fun cs => ⟨cs⟩)

/-! ## ConversationHistory (src/src/conversationHistory.ts) -/

inductive Role where
  | user
  | assistant
deriving DecidableEq, Repr

structure Message where
  role : Role
  content : String
  timestamp : Int
deriving DecidableEq, Repr

/-- The `ConversationHistory` class state: the `conversations` map (insertion
order preserved, as for JS `Map`) plus the two construction-time limits. -/
structure ConversationHistory where
  conversations : List (String × List Message)
  maxMessages : Nat
  maxAge : Int

/-- `map.set(key, value)` — update in place keeping position, else append. -/
def mapSet {α : Type} : List (String × α) → String → α → List (String × α)
  | [], key, v => [(key, v)]
  | (k, w) :: rest, key, v =>
      if k = key then (k, v) :: rest else (k, w) :: mapSet rest key v

/-- `filtered.slice(-maxMessages)`. JS quirk: `slice(-0)` is `slice(0)`, the
whole array, so `maxMessages = 0` does not trim at all. -/
def jsSliceFromEnd (n : Nat) (l : List Message) : List Message :=
  if n = 0 then l else l.drop (l.length - n)

namespace ConversationHistory

/-- `cleanup(userId)` at time `now`: age trim (strict `timestamp > now -
maxAge`), then count trim, writing the result back into the map. The local
`messages` array itself is never mutated — the map entry is replaced with a
fresh array. -/
def cleanup (h : ConversationHistory) (userId : String) (now : Int) :
    ConversationHistory :=
  match h.conversations.lookup userId with
  | none => h
  | some messages =>
      let cutoffTime := now - h.maxAge
      let filtered := messages.filter (fun msg => cutoffTime < msg.timestamp)
      let kept :=
        if h.maxMessages < filtered.length then jsSliceFromEnd h.maxMessages filtered
        else filtered
      { h with conversations := mapSet h.conversations userId kept }

/-- `addMessage(userId, role, content)` at time `now`: ensure the user's
array exists, push, then `cleanup`. -/
def addMessage (h : ConversationHistory) (userId : String) (role : Role)
    (content : String) (now : Int) : ConversationHistory :=
  let existing := (h.conversations.lookup userId).getD []
  let pushed := mapSet h.conversations userId
    (existing ++ [{ role := role, content := content, timestamp := now }])
  cleanup { h with conversations := pushed } userId now

/-- `getHistory(userId)` at time `now`. The source captures the array
reference `messages` BEFORE calling `cleanup`; `cleanup` replaces the map
entry with a new filtered array and never mutates the captured one, so the
returned copy is the PRE-cleanup content while the stored state is the
post-cleanup one. The pair returned here is (returned list, new state). -/
def getHistory (h : ConversationHistory) (userId : String) (now : Int) :
    List Message × ConversationHistory :=
  let messages := (h.conversations.lookup userId).getD []
  (messages, cleanup h userId now)

end ConversationHistory

/-! ## ToolCache (src/src/toolCache.ts) -/

/-- One declared schema property (`{type, description}`); both fields are
optional in the raw JSON schema. -/
structure PropSchema where
  type : Option String := none
  propDescription : Option String := none
deriving Repr

/-- JSON-Schema-like input schema: `properties` map (insertion order) and
`required` list, both optional in the raw value. -/
structure SchemaT where
  properties : Option (List (String × PropSchema)) := none
  required : Option (List String) := none
deriving Repr

structure ExampleT where
  query : String
  args : List (String × JVal)

structure SafetyT where
  read : Bool
  write : Bool
  destructive : Bool
deriving DecidableEq, Repr

structure ToolMetadata where
  name : String
  toolDescription : String
  inputSchema : SchemaT
  examples : List ExampleT
  safety : SafetyT

/-- A tool as returned by the remote `listTools` call. -/
structure RawTool where
  name : String
  rawDescription : Option String := none
  rawSchema : Option SchemaT := none

namespace ToolCache

/-- `generateExamples(toolName, description, schema)` — the canned usage
examples keyed off tool-name substrings, plus a generic schema-derived
example. -/
def generateExamples (toolName : String) (schema : SchemaT) : List ExampleT :=
  let canned : List ExampleT :=
    if toolName = "send_document" then
      [ { query := "send me the ecp checklist", args := [("query", .str "ecp checklist")] },
        { query := "where is the submittal package", args := [("query", .str "submittal package")] },
        { query := "get me the project deadline document", args := [("query", .str "project deadline")] } ]
    else if jsIncludes toolName "project" then
      [ { query := "show me project details", args := [] },
        { query := "what projects do we have", args := [] } ]
    else if jsIncludes toolName "user" || jsIncludes toolName "users" then
      [ { query := "list all users", args := [] },
        { query := "who are the team members", args := [] } ]
    else if jsIncludes toolName "document" || jsIncludes toolName "doc" then
      [ { query := "get document by id", args := [("id", .str "example-id")] },
        { query := "find document", args := [("query", .str "example")] } ]
    else if jsIncludes toolName "client" then
      [ { query := "get client information", args := [] },
        { query := "show me client details", args := [] } ]
    else if jsIncludes toolName "phone" || jsIncludes toolName "phone_number" then
      [ { query := "get phone number for client", args := [] },
        { query := "what is the phone number", args := [] },
        { query := "send me phone number", args := [] },
        { query := "send me burkards number", args := [] },
        { query := "get burkards phone", args := [] },
        { query := "phone number", args := [] } ]
    else if jsIncludes toolName "email" then
      [ { query := "get email address for client", args := [] },
        { query := "what is the email", args := [] },
        { query := "send me email", args := [] },
        { query := "send me burkards email", args := [] },
        { query := "get bruce harveys email", args := [] },
        { query := "email address", args := [] } ]
    else if jsIncludes toolName "address" then
      [ { query := "get address for client", args := [] },
        { query := "what is the address", args := [] },
        { query := "send me address", args := [] },
        { query := "address", args := [] } ]
    else []
  let props := schema.properties.getD []
  let exampleArgs := props.foldl (fun acc kv =>
    match kv.2.type with
    | some "string" => jsObjSet acc kv.1 (.str ("example-" ++ kv.1))
    | some "number" => jsObjSet acc kv.1 (.num 123)
    | some "boolean" => jsObjSet acc kv.1 (.bool true)
    | _ => acc) []
  let generic : List ExampleT :=
    if props.length > 0 && exampleArgs.length > 0 then
      [ { query := "use " ++ toolName ++ " with " ++
            String.intercalate " and " (exampleArgs.map (·.1)),
          args := exampleArgs } ]
    else []
  canned ++ generic

/-- `analyzeSafety(toolName, description, schema)` — keyword heuristics over
the lowercased name and description. -/
def analyzeSafety (toolName descr : String) : SafetyT :=
  let lowerName := jsToLower toolName
  let lowerDesc := jsToLower descr
  let destructiveKeywords := ["delete", "remove", "destroy", "drop", "clear", "truncate", "cancel"]
  let destructive := destructiveKeywords.any
    (fun kw => jsIncludes lowerName kw || jsIncludes lowerDesc kw)
  let writeKeywords := ["create", "update", "edit", "modify", "add", "insert", "save", "set", "post", "put", "patch"]
  let write := writeKeywords.any
    (fun kw => jsIncludes lowerName kw || jsIncludes lowerDesc kw) || destructive
  let read := !write && !destructive
  { read := read, write := write, destructive := destructive }

def buildMetadata (t : RawTool) : ToolMetadata :=
  let descr := t.rawDescription.getD ""
  let schema := t.rawSchema.getD {}
  { name := t.name
    toolDescription := descr
    inputSchema := schema
    examples := generateExamples t.name schema
    safety := analyzeSafety t.name descr }

/-- The in-memory tool table (`Map<string, ToolMetadata>` in insertion
order). -/
def ToolTable := List (String × ToolMetadata)

/-- `refresh()` given the outcome of the single remote `listTools` call.
The `await` on `listTools` is the only fallible step; `tools.clear()` and
the repopulation loop run strictly after it succeeds, and a failure is
rethrown by the `catch` without touching the table. Returns the new table
and the propagated error, if any. -/
def refresh (tools : List (String × ToolMetadata))
    (listToolsResult : Except String (List RawTool)) :
    List (String × ToolMetadata) × Option String :=
  match listToolsResult with
  | .error e => (tools, some e)
  | .ok toolList =>
      (toolList.foldl (fun acc t => mapSet acc t.name (buildMetadata t)) [], none)

/-- `getTool(name)` — exact `Map.get` lookup. -/
def getTool (tools : List (String × ToolMetadata)) (name : String) :
    Option ToolMetadata :=
  tools.lookup name

/-- `getAllTools()` — values snapshot in insertion order. -/
def getAllTools (tools : List (String × ToolMetadata)) : List ToolMetadata :=
  tools.map (·.2)

end ToolCache

/-! ## ContextProvider (src/unnamed/part_001, contextProvider.ts) -/

/-- A network call to an external collaborator: the MCP resource/tool server
(`listResources` / `readResource`) or the model endpoint (`modelFetch`, the
`fetch` in `Planner.callLLM`). `listTools`/`callTool` traffic is traced
separately where it matters (ToolCache, PlanExecutor). -/
inductive NetCall where
  | listResources
  | readResource (uri : String)
  | modelFetch
deriving DecidableEq, Repr

structure UserContext where
  userId : String
  userName : Option String := none
  defaultProject : Option String := none
  lastReferencedProject : Option String := none
  timezone : Option String := none
deriving DecidableEq, Repr

/-- An EntityRecord: the JS object built for each source item, as an
insertion-ordered field list (`id`, `name`, then the passed-through source
fields). -/
def EntityRecord := List (String × JVal)

/-- The remote MCP server's behaviour as seen by the ContextProvider:
the outcome of `listResources` (a list of resource URIs — only the `uri`
field of each resource is consumed), and per URI the outcome of
`readResource` combined with `JSON.parse` of `contents[0].text || '[]'`.
`none` covers both a transport error and a non-JSON payload: the source
skips the resource in either case (they differ only in the log line). A
successful read with missing contents parses the `'[]'` default, so the
oracle returns `some (.arr [])` there. -/
structure McpWorld where
  listResourcesResult : Except Unit (List String)
  readResourceParsed : String → Option JVal

/-- State of the ContextProvider instance. `entityRefreshInterval` is the
fixed 5-minute constant of the source. -/
structure CtxState where
  userSessions : List (String × UserContext)
  entityCache : List (String × List EntityRecord)
  lastEntityRefresh : Int

def entityRefreshInterval : Int := 5 * 60 * 1000

namespace ContextProvider

/-- `discoverResources()`: list resources from the server keeping only the
`://all` ones; on transport failure, fall back to the fixed default three
(the failed network call was still issued, hence the trace entry in both
branches). -/
def discoverResources (w : McpWorld) : List String × List NetCall :=
  match w.listResourcesResult with
  | .ok resources =>
      (resources.filter (fun uri =>
          jsEndsWith uri "://all" || jsIncludes uri "://all/"),
        [.listResources])
  | .error _ =>
      (["projects://all", "users://all", "documents://all"], [.listResources])

/-- The `/^([^:]+):/` match: the non-empty text before the first `:`. -/
def extractResourceType (uri : String) : Option String :=
  let before := uri.data.takeWhile (fun c => c ≠ ':')
  if before.length = 0 || before.length = uri.data.length then none
  else some ⟨before⟩

/-- The per-item mapping inside `refreshEntityCatalog`: normalized `id` and
`name` first (JS `||` chains over `item.id` / `item[resourceType + "Id"]` /
`String(item._id || '')` and `item.name` / `item[resourceType + "Name"]` /
`item.fileName` / `item.title` / `''`), then every source field other than
`id`, `name`, `_id` passed through in order. -/
def mapItem (resourceType : String) (item : JVal) : EntityRecord :=
  let idVal :=
    match jsFirstTruthy [jsGet item "id", jsGet item (resourceType ++ "Id")] with
    | some v => v
    | none =>
        .str (jsToString (match jsGet item "_id" with
          | some v => if jsTruthy v then v else .str ""
          | none => .str ""))
  let nameVal :=
    match jsFirstTruthy [jsGet item "name", jsGet item (resourceType ++ "Name"),
        jsGet item "fileName", jsGet item "title"] with
    | some v => v
    | none => .str ""
  ("id", idVal) :: ("name", nameVal) ::
    (jsEntries item).filter (fun kv =>
      kv.1 ≠ "id" && kv.1 ≠ "name" && kv.1 ≠ "_id")

/-- One iteration of the resource loop: skip URIs with no type prefix before
the `readResource` call; issue the read; on failure (transport or parse) skip;
otherwise wrap non-arrays, truncate to 100 items, map each item and store
under the resource type. -/
def refreshStep (w : McpWorld)
    (acc : List (String × List EntityRecord) × List NetCall) (uri : String) :
    List (String × List EntityRecord) × List NetCall :=
  match extractResourceType uri with
  | none => acc
  | some resourceType =>
      let trace := acc.2 ++ [.readResource uri]
      match w.readResourceParsed uri with
      | none => (acc.1, trace)
      | some parsed =>
          let items := match parsed with
            | .arr xs => xs
            | v => [v]
          let entities := (items.take 100).map (mapItem resourceType)
          (mapSet acc.1 resourceType entities, trace)

/-- `refreshEntityCatalog()` at time `now`: discover resources, clear the
cache, fetch each resource independently, then stamp `lastEntityRefresh`. -/
def refreshEntityCatalog (w : McpWorld) (now : Int) (st : CtxState) :
    CtxState × List NetCall :=
  let (resources, trace0) := discoverResources w
  let (cache, trace1) := resources.foldl (refreshStep w) ([], [])
  ({ st with entityCache := cache, lastEntityRefresh := now }, trace0 ++ trace1)

/-- `getUserContext(userId)` at time `now`: create-and-persist a default
context (fixed default timezone) on first sight, then refresh the entity
catalog if stale. -/
def getUserContext (w : McpWorld) (now : Int) (st : CtxState) (userId : String) :
    UserContext × CtxState × List NetCall :=
  let (context, st1) :=
    match st.userSessions.lookup userId with
    | some c => (c, st)
    | none =>
        let c : UserContext := { userId := userId, timezone := some "America/New_York" }
        (c, { st with userSessions := mapSet st.userSessions userId c })
  if entityRefreshInterval < now - st1.lastEntityRefresh then
    let (st2, trace) := refreshEntityCatalog w now st1
    (context, st2, trace)
  else
    (context, st1, [])

/-- `getEntityCatalog()` at time `now`: refresh if stale, then return the
(possibly fresh) cache. -/
def getEntityCatalog (w : McpWorld) (now : Int) (st : CtxState) :
    List (String × List EntityRecord) × CtxState × List NetCall :=
  if entityRefreshInterval < now - st.lastEntityRefresh then
    let (st1, trace) := refreshEntityCatalog w now st
    (st1.entityCache, st1, trace)
  else
    (st.entityCache, st, [])

end ContextProvider

/-! ## Planner (src/dist/planner.js) -/

/-- Construction-time credential configuration. The constructor computes
`this.llmApiKey = llmApiKey || env.OPENAI_API_KEY || ''`; `callLLM` then
recomputes `apiKey = this.llmApiKey || env.OPENAI_API_KEY` before the check.
An unset environment variable is modelled as `""` (both are falsy and both
fail the `!apiKey || apiKey.trim() === ''` test identically). -/
structure PlannerConfig where
  llmApiKey : String
  envApiKey : String

/-- The key `callLLM` actually checks. -/
def effectiveApiKey (cfg : PlannerConfig) : String :=
  jsOrStr cfg.llmApiKey cfg.envApiKey

def apiKeyError : String :=
  "LLM API key not configured. Set OPENAI_API_KEY environment variable."

/-- The canned fallback plan returned on any parse/validation failure. -/
def fallbackPlan : JVal :=
  .obj [("calls", .arr []),
        ("fallback_text", .str ("Look, I tried my best to understand what you\x27re asking for, but even my superior AI brain is confused. Could you maybe try using actual words next time? Just kidding... mostly. Could you rephrase that?"))]

namespace Planner

/-- `validatePlan(plan)`: `calls` must be an array; each call must have a
truthy string `tool` and a truthy object-typed `args`; each tool must exist
in the ToolCache. Returns the first thrown error message, or `none`.
(A `null` entry in `calls` makes the property access throw a TypeError in JS
rather than this validation error; both are caught by the same `catch` in
`plan` and produce the same fallback, so the distinction is not modelled.) -/
def validatePlan (tools : List (String × ToolMetadata)) (plan : JVal) :
    Option String :=
  match jsGet plan "calls" with
  | some (.arr calls) =>
      calls.findSome? (fun call =>
        let toolField := jsGet call "tool"
        if !jsTruthyOpt toolField
            || !(match toolField with | some v => jsTypeofString v | none => false) then
          some "Each call must have a tool name"
        else if !jsTruthyOpt (jsGet call "args")
            || !(match jsGet call "args" with | some v => jsTypeofObject v | none => false) then
          some "Each call must have args object"
        else
          match toolField with
          | some (.str toolName) =>
              match ToolCache.getTool tools toolName with
              | none => some ("Unknown tool: " ++ toolName)
              | some _ => none
          | _ => none)
  | _ => some "Plan must have calls array"

/-- `plan(message, userId, context, history)`. Control flow embedded:
`getUserContext`, then `getEntityCatalog` (each may refresh the entity
catalog over the network when stale), then prompt construction (pure string
building, not carried in the result), then `callLLM`. `callLLM` checks the
credential BEFORE issuing its `fetch`; a thrown error propagates out of
`plan` (the `try` only wraps parse + validation). `llmResult` is the model
call's outcome: outer `Except` is the transport/HTTP layer (an error is
wrapped and rethrown), inner `Except` is `JSON.parse` of the returned text.
Returns (thrown-error-or-plan, final ContextProvider state, network trace in
order). -/
def plan (cfg : PlannerConfig) (tools : List (String × ToolMetadata))
    (w : McpWorld) (now : Int) (st : CtxState) (userId : String)
    (llmResult : Except String (Except Unit JVal)) :
    Except String JVal × CtxState × List NetCall :=
  let (_userContext, st1, trace1) := ContextProvider.getUserContext w now st userId
  let (_entityCatalog, st2, trace2) := ContextProvider.getEntityCatalog w now st1
  let contextTrace := trace1 ++ trace2
  if jsTrim (effectiveApiKey cfg) = "" then
    (.error apiKeyError, st2, contextTrace)
  else
    let trace := contextTrace ++ [NetCall.modelFetch]
    match llmResult with
    | .error e => (.error ("Failed to connect to LLM API. " ++ e), st2, trace)
    | .ok parsed =>
        match parsed with
        | .error _ => (.ok fallbackPlan, st2, trace)
        | .ok planJson =>
            match validatePlan tools planJson with
            | some _ => (.ok fallbackPlan, st2, trace)
            | none => (.ok planJson, st2, trace)

end Planner

/-! ## PlanExecutor (src/src/planExecutor.ts) -/

/-- A call inside a Plan (`{tool, args}`). -/
structure PlanCall where
  tool : String
  args : List (String × JVal)

/-- The typed `Plan` interface as produced by Router / consumed by
PlanExecutor. Optional fields are `Option`s; `needs_confirmation` absent or
`false` are both falsy. -/
structure PlanT where
  calls : List PlanCall
  needs_confirmation : Option Bool := none
  fallback_text : Option String := none
  reasoning : Option String := none

structure ExecutionResult where
  success : Bool
  results : List JVal
  errors : List (PlanCall × String)
  needsConfirmation : Bool

namespace PlanExecutor

/-- `validateCall(call)`: unknown tool; missing schema or properties means
nothing to validate; required-property presence (first missing wins); then
type check over the call's own argument entries in order (unknown properties
pass through). -/
def validateCall (tools : List (String × ToolMetadata)) (call : PlanCall) :
    Option String :=
  match ToolCache.getTool tools call.tool with
  | none => some ("Unknown tool: " ++ call.tool)
  | some tool =>
      match tool.inputSchema.properties with
      | none => none
      | some props =>
          let required := tool.inputSchema.required.getD []
          match required.find? (fun p => (call.args.lookup p).isNone) with
          | some p => some ("Missing required argument: " ++ p)
          | none =>
              call.args.findSome? (fun kv =>
                match props.lookup kv.1 with
                | none => none
                | some prop =>
                    if prop.type = some "string" && !jsTypeofString kv.2 then
                      some ("Invalid type for " ++ kv.1 ++ ": expected string")
                    else if prop.type = some "number" && !jsTypeofNumber kv.2 then
                      some ("Invalid type for " ++ kv.1 ++ ": expected number")
                    else if prop.type = some "boolean" && !jsTypeofBoolean kv.2 then
                      some ("Invalid type for " ++ kv.1 ++ ": expected boolean")
                    else none)

/-- `execute(plan, userId, context)` with the remote server's `callTool`
behaviour as an oracle. Returns the ExecutionResult and the trace of remote
tool invocations actually issued ((tool, args) in order). No stream handler
is registered, so `stream` is a no-op. A failed remote call is wrapped by
`executeCall` as `Tool execution failed: ...` and recorded; execution
continues either way. -/
def execute (tools : List (String × ToolMetadata))
    (callTool : String → List (String × JVal) → Except String JVal)
    (plan : PlanT) : ExecutionResult × List (String × List (String × JVal)) :=
  let init : ExecutionResult :=
    { success := true
      results := []
      errors := []
      needsConfirmation := plan.needs_confirmation.getD false }
  if plan.needs_confirmation.getD false then
    (init, [])
  else
    plan.calls.foldl (fun acc call =>
      match validateCall tools call with
      | some validationError =>
          ({ acc.1 with
             errors := acc.1.errors ++ [(call, validationError)]
             success := false }, acc.2)
      | none =>
          let trace := acc.2 ++ [(call.tool, call.args)]
          match callTool call.tool call.args with
          | .ok toolResult =>
              ({ acc.1 with results := acc.1.results ++ [toolResult] }, trace)
          | .error e =>
              ({ acc.1 with
                 errors := acc.1.errors ++ [(call, "Tool execution failed: " ++ e)]
                 success := false }, trace)) (init, [])

end PlanExecutor

/-! ## Exact rational arithmetic for fast-path confidences

A normalized fraction: operations keep `den` positive and the pair reduced,
so structural equality coincides with rational equality on every value the
embedding constructs. -/

structure Q where
  num : Int
  den : Nat
deriving DecidableEq, Repr

/-- Reduce `n / d` (callers always pass `0 < d`). -/
def Q.norm (n : Int) (d : Nat) : Q :=
  if d = 0 then { num := n, den := 0 }
  else
    let g := n.natAbs.gcd d
    { num := n.tdiv (Int.ofNat g), den := d / g }

/-- The fraction `m / n` of two naturals (denominators in the embedded code
are always positive word counts). -/
def Q.ratio (m n : Nat) : Q := Q.norm (Int.ofNat m) n

def Q.add (a b : Q) : Q := Q.norm (a.num * b.den + b.num * a.den) (a.den * b.den)

def Q.mul (a b : Q) : Q := Q.norm (a.num * b.num) (a.den * b.den)

/-- `a <= b` by cross multiplication. -/
def Q.le (a b : Q) : Bool := decide (a.num * b.den ≤ b.num * a.den)

/-- `a < b` by cross multiplication. -/
def Q.lt (a b : Q) : Bool := decide (a.num * b.den < b.num * a.den)

/-- `Math.min` (no NaN can arise here). -/
def Q.min (a b : Q) : Q := if Q.le a b then a else b

/-! ## Router (src/src/router.ts)

`extractArgsFromMessage` uses a handful of JS regexes; each is embedded as a
bespoke matcher with JS regex semantics (leftmost match wins: candidate start
positions are tried left to right, alternation alternatives in order, greedy
quantifiers with the backtracking actually reachable for these patterns). -/

/-- Case-insensitive literal match at the head of `s`; returns the rest. -/
def ciMatchRest : List Char → List Char → Option (List Char)
  | [], s => some s
  | _ :: _, [] => none
  | p :: ps, c :: cs =>
      if p.toLower = c.toLower then ciMatchRest ps cs else none

/-- Try a matcher at every start position, leftmost first (JS regex search
without the `g` flag). -/
def scanSuffixes {α : Type} (f : List Char → Option α) : List Char → Option α
  | [] => f []
  | c :: rest =>
      match f (c :: rest) with
      | some r => some r
      | none => scanSuffixes f rest

/-- JS `\w`. -/
def isWordChar (c : Char) : Bool := c.isAlphanum || c = '_'

/-- `propName\s*[:=]\s*["']([^"']+)["']` (flag `i`) at one position. The
character class `["']` lets the closing quote differ from the opening one,
as in the source pattern. -/
def quotedValueAt (prop : List Char) (s : List Char) : Option String :=
  match ciMatchRest prop s with
  | none => none
  | some r1 =>
      match r1.dropWhile isJsWs with
      | [] => none
      | c :: r3 =>
          if c = ':' || c = '=' then
            match r3.dropWhile isJsWs with
            | [] => none
            | q :: r5 =>
                if q = '"' || q = '\x27' then
                  let run := r5.takeWhile (fun d => d ≠ '"' && d ≠ '\x27')
                  if 0 < run.length && 0 < (r5.drop run.length).length then
                    some ⟨run⟩
                  else none
                else none
          else none

def jsQuotedValueMatch (propName message : String) : Option String :=
  scanSuffixes (quotedValueAt propName.data) message.data

/-- `propName\s+(\S+)` (flag `i`) at one position. -/
def propValueAt (prop : List Char) (s : List Char) : Option String :=
  match ciMatchRest prop s with
  | none => none
  | some r1 =>
      let wsRun := r1.takeWhile isJsWs
      if wsRun.length = 0 then none
      else
        let cap := (r1.drop wsRun.length).takeWhile (fun c => !isJsWs c)
        if 0 < cap.length then some ⟨cap⟩ else none

def jsPropValueMatch (propName message : String) : Option String :=
  scanSuffixes (propValueAt propName.data) message.data

/-- The suffix starting at the rightmost `.`-matchable character, if any
(used for the `\s+` backtracking case of the query-verb pattern). -/
def rightmostDotStart : List Char → Option (List Char)
  | [] => none
  | c :: cs =>
      match rightmostDotStart cs with
      | some r => some r
      | none => if isDotChar c then some (c :: cs) else none

/-- The alternatives of `(?:for|about|search|find|get|show|send|give)`, in
pattern order. -/
def queryVerbs : List String :=
  ["for", "about", "search", "find", "get", "show", "send", "give"]

/-- `(?:for|about|search|find|get|show|send|give)\s+(.+)` (flag `i`) at one
position. When text follows the whitespace run, `(.+)` greedily captures the
`.`-matchable run from there; when the string ends in whitespace, `\s+`
backtracks and `(.+)` can capture trailing whitespace (`.` matches space and
tab but no line terminator). -/
def queryVerbAt (s : List Char) : Option String :=
  queryVerbs.findSome? (fun verb =>
    match ciMatchRest verb.data s with
    | none => none
    | some r1 =>
        let wsRun := r1.takeWhile isJsWs
        if wsRun.length = 0 then none
        else
          match r1.drop wsRun.length with
          | c :: rest => some ⟨(c :: rest).takeWhile isDotChar⟩
          | [] =>
              match rightmostDotStart (wsRun.drop 1) with
              | some suffix => some ⟨suffix.takeWhile isDotChar⟩
              | none => none)

def jsQueryVerbMatch (message : String) : Option String :=
  scanSuffixes queryVerbAt message.data

/-- The class `[a-z0-9_-]` under flag `i`. -/
def isIdClassChar (c : Char) : Bool := c.isAlphanum || c = '_' || c = '-'

/-- Longest prefix (length in `[1, n]`) of `run` whose final character's
word-ness differs from the character after it (`\b` after the capture);
tries the greedy length first, then backtracks. -/
def idShrink (run : List Char) (afterIsWord : Bool) : Nat → Option (List Char)
  | 0 => none
  | n + 1 =>
      let r := run.take (n + 1)
      let nextIsWord :=
        match run.drop (n + 1) with
        | [] => afterIsWord
        | d :: _ => isWordChar d
      if isWordChar (r.getLast?.getD ' ') ≠ nextIsWord then some r
      else idShrink run afterIsWord n

/-- `\b([a-z0-9_-]+)\b` (flag `i`): scan start positions left to right
carrying the previous character for the leading `\b`. -/
def idScan (prev : Option Char) : List Char → Option String
  | [] => none
  | c :: cs =>
      let prevIsWord := match prev with | some p => isWordChar p | none => false
      if isIdClassChar c && (prevIsWord ≠ isWordChar c) then
        let run := (c :: cs).takeWhile isIdClassChar
        let afterIsWord :=
          match (c :: cs).drop run.length with
          | [] => false
          | d :: _ => isWordChar d
        match idShrink run afterIsWord run.length with
        | some r => some ⟨r⟩
        | none => idScan (some c) cs
      else idScan (some c) cs

def jsIdMatch (message : String) : Option String := idScan none message.data

def digitsToNat (run : List Char) : Nat :=
  run.foldl (fun n c => 10 * n + (c.toNat - 48)) 0

/-- `propName\s*[:=]\s*(\d+)` (flag `i`) at one position. -/
def numPropAt (prop : List Char) (s : List Char) : Option Nat :=
  match ciMatchRest prop s with
  | none => none
  | some r1 =>
      match r1.dropWhile isJsWs with
      | [] => none
      | c :: r3 =>
          if c = ':' || c = '=' then
            let r4 := r3.dropWhile isJsWs
            let run := r4.takeWhile Char.isDigit
            if 0 < run.length then some (digitsToNat run) else none
          else none

def jsNumPropMatch (propName message : String) : Option Nat :=
  scanSuffixes (numPropAt propName.data) message.data

/-- `\b(\d+)\b`: first digit run with word boundaries on both sides
(shrinking the run cannot repair a failed trailing `\b`, since the next
character would be a digit). -/
def anyNumScan (prev : Option Char) : List Char → Option Nat
  | [] => none
  | c :: cs =>
      let prevIsWord := match prev with | some p => isWordChar p | none => false
      if c.isDigit && !prevIsWord then
        let run := (c :: cs).takeWhile Char.isDigit
        let ok :=
          match (c :: cs).drop run.length with
          | [] => true
          | d :: _ => !isWordChar d
        if ok then some (digitsToNat run) else anyNumScan (some c) cs
      else anyNumScan (some c) cs

def jsAnyNumberMatch (message : String) : Option Nat :=
  anyNumScan none message.data

/-- `propName\s*[:=]\s*(true|false|yes|no)` (flag `i`) at one position; the
returned Bool is `['true','yes'].includes(capture.toLowerCase())`. -/
def boolPropAt (prop : List Char) (s : List Char) : Option Bool :=
  match ciMatchRest prop s with
  | none => none
  | some r1 =>
      match r1.dropWhile isJsWs with
      | [] => none
      | c :: r3 =>
          if c = ':' || c = '=' then
            let r4 := r3.dropWhile isJsWs
            (["true", "false", "yes", "no"].findSome? (fun alt =>
              match ciMatchRest alt.data r4 with
              | some _ => some (alt = "true" || alt = "yes")
              | none => none))
          else none

def jsBoolPropMatch (propName message : String) : Option Bool :=
  scanSuffixes (boolPropAt propName.data) message.data

namespace Router

/-- The id-property fallback of the string branch (reached when the quoted,
literal-token and query-verb extractions all failed). -/
def stringIdFallback (args : List (String × JVal)) (propName message : String) :
    List (String × JVal) :=
  if jsIncludes (jsToLower propName) "id"
      || jsIncludes (jsToLower propName) "identifier" then
    match jsIdMatch message with
    | some v => jsObjSet args propName (.str v)
    | none => args
  else args

/-- `extractArgsFromMessage(message, tool, exampleArgs)`. Properties already
seeded from the example template are skipped; `propType` defaults to
`'string'`; `propDesc` is computed but unused in the source. The final
required-property logic is verbatim: all required present (or none declared)
returns the set unless it is empty while something was required; a partial
set with at least one extracted value is still returned; otherwise `null`. -/
def extractArgsFromMessage (message : String) (tool : ToolMetadata)
    (exampleArgs : List (String × JVal)) : Option (List (String × JVal)) :=
  let properties := tool.inputSchema.properties.getD []
  let args := properties.foldl (fun args kv =>
    let propName := kv.1
    if (args.lookup propName).isSome then args
    else
      let propType := kv.2.type.getD "string"
      if propType = "string" then
        match jsQuotedValueMatch propName message with
        | some v => jsObjSet args propName (.str v)
        | none =>
            match jsPropValueMatch propName message with
            | some v => jsObjSet args propName (.str v)
            | none =>
                if jsIncludes (jsToLower propName) "query"
                    || jsIncludes (jsToLower propName) "search" then
                  match jsQueryVerbMatch message with
                  | some v => jsObjSet args propName (.str (jsTrim v))
                  | none => stringIdFallback args propName message
                else stringIdFallback args propName message
      else if propType = "number" then
        match jsNumPropMatch propName message with
        | some n => jsObjSet args propName (.num n)
        | none =>
            match jsAnyNumberMatch message with
            | some n => jsObjSet args propName (.num n)
            | none => args
      else if propType = "boolean" then
        match jsBoolPropMatch propName message with
        | some b => jsObjSet args propName (.bool b)
        | none => args
      else args) exampleArgs
  let required := tool.inputSchema.required.getD []
  let hasAllRequired := required.all (fun p => (args.lookup p).isSome)
  if required.length = 0 || hasAllRequired then
    if args.length = 0 && 0 < required.length then none else some args
  else if 0 < args.length then some args
  else none

structure FPMatch where
  tool : String
  args : List (String × JVal)
  confidence : Q

def documentKeywords : List String :=
  ["document", "doc", "checklist", "package", "file", "pdf", "submittal", "ecp"]

/-- One example's scoring: tokenize (example tokens longer than 2, all
message tokens), count example tokens with a bidirectional-substring partner,
emit when at least `min(2, |exampleWords|)` match and the ratio exceeds
0.5. -/
def exampleCandidate (message lowerMessage : String) (tool : ToolMetadata)
    (ex : ExampleT) : List FPMatch :=
  let exampleQuery := jsToLower ex.query
  let exampleWords := (jsSplitOnRuns isJsWs exampleQuery).filter (fun w => 2 < w.length)
  let messageWords := jsSplitOnRuns isJsWs lowerMessage
  let matchingWords := exampleWords.filter (fun ew =>
    messageWords.any (fun mw => jsIncludes mw ew || jsIncludes ew mw))
  let confidence : Q :=
    if 0 < exampleWords.length then
      Q.ratio matchingWords.length exampleWords.length
    else Q.ratio 0 1
  if min 2 exampleWords.length ≤ matchingWords.length && Q.lt (Q.ratio 1 2) confidence then
    match extractArgsFromMessage message tool ex.args with
    | some args => [{ tool := tool.name, args := args, confidence := confidence }]
    | none => []
  else []

/-- The matches one tool contributes to the pool, in push order: example
matches, then the name-keyword match, then the description-keyword match.
The `send_document` guard at the top of the loop skips the tool wholesale;
the two inner re-checks translate the source's `continue` statements (they
are unreachable when the outer guard passed, but kept for fidelity). -/
def toolMatches (message lowerMessage : String) (isDocumentRequest : Bool)
    (tool : ToolMetadata) : List FPMatch :=
  if tool.name = "send_document" && !isDocumentRequest then []
  else
    let exMatches := tool.examples.flatMap (exampleCandidate message lowerMessage tool)
    let toolNameWords :=
      (jsSplitOnRuns (fun c => c = '_' || isJsWs c) (jsToLower tool.name)).filter
        (fun w => 3 < w.length)
    let nameMatches := toolNameWords.filter (fun w => jsIncludes lowerMessage w)
    if 0 < nameMatches.length && (tool.name = "send_document" && !isDocumentRequest) then
      exMatches
    else
      let afterName :=
        if 0 < nameMatches.length then
          match extractArgsFromMessage message tool [] with
          | some args =>
              let confidence : Q :=
                Q.add (Q.ratio 3 5)
                  (Q.mul (Q.ratio nameMatches.length toolNameWords.length) (Q.ratio 1 5))
              exMatches ++ [{ tool := tool.name, args := args,
                              confidence := Q.min confidence (Q.ratio 9 10) }]
          | none => exMatches
        else exMatches
      let descWords :=
        (jsSplitOnRuns isJsWs (jsToLower tool.toolDescription)).filter (fun w => 4 < w.length)
      let descMatches := descWords.filter (fun w => jsIncludes lowerMessage w)
      if 0 < descMatches.length && (tool.name = "send_document" && !isDocumentRequest) then
        afterName
      else if 0 < descMatches.length then
        match extractArgsFromMessage message tool [] with
        | some args =>
            let confidence : Q :=
              Q.add (Q.ratio 1 2)
                (Q.mul (Q.ratio descMatches.length descWords.length) (Q.ratio 1 10))
            afterName ++ [{ tool := tool.name, args := args,
                            confidence := Q.min confidence (Q.ratio 7 10) }]
        | none => afterName
      else afterName

/-- The full candidate pool of `tryFastPath` before threshold selection:
`lowerMessage = message.toLowerCase().trim()`, the document-keyword test, and
the per-tool scoring in catalog order. -/
def collectMatches (tools : List ToolMetadata) (message : String) : List FPMatch :=
  let lowerMessage := jsTrim (jsToLower message)
  let isDocumentRequest := documentKeywords.any (fun kw => jsIncludes lowerMessage kw)
  tools.flatMap (toolMatches message lowerMessage isDocumentRequest)

/-- Insert after all entries of confidence at least as high: the unique
descending stable order, which is what `sort((a, b) => b.confidence -
a.confidence)` produces (ECMAScript sorts are stable and a stable sort's
result is unique). -/
def insertDesc (m : FPMatch) : List FPMatch → List FPMatch
  | [] => [m]
  | h :: t =>
      if Q.le m.confidence h.confidence then h :: insertDesc m t
      else m :: h :: t

def sortByConfDesc (l : List FPMatch) : List FPMatch :=
  l.foldl (fun acc m => insertDesc m acc) []

/-- The selection tail of `tryFastPath`: keep everything at or above 0.5;
when at least one survivor reaches 0.6, widen to everything at or above
0.4. -/
def selectMatches (pool : List FPMatch) : List FPMatch :=
  if pool.length = 0 then []
  else
    let sorted := sortByConfDesc pool
    let validMatches := sorted.filter (fun m => Q.le (Q.ratio 1 2) m.confidence)
    if 0 < validMatches.length
        && validMatches.any (fun m => Q.le (Q.ratio 3 5) m.confidence) then
      sorted.filter (fun m => Q.le (Q.ratio 2 5) m.confidence)
    else validMatches

def tryFastPath (tools : List ToolMetadata) (message : String) : List FPMatch :=
  selectMatches (collectMatches tools message)

end Router

/-! Deduplication needs the `JSON.stringify`-based map key of the source;
structural equality of `(tool, args)` coincides with equality of
`` `${tool}:${JSON.stringify(args)}` `` because stringify is injective on the
values representable by `JVal` (no `undefined`, no floats). -/

mutual
def jvalBeq : JVal → JVal → Bool
  | .str a, .str b => a = b
  | .num a, .num b => a = b
  | .bool a, .bool b => a = b
  | .null, .null => true
  | .arr a, .arr b => jvalListBeq a b
  | .obj a, .obj b => jvalFieldsBeq a b
  | _, _ => false

def jvalListBeq : List JVal → List JVal → Bool
  | [], [] => true
  | a :: as, b :: bs => jvalBeq a b && jvalListBeq as bs
  | _, _ => false

def jvalFieldsBeq : List (String × JVal) → List (String × JVal) → Bool
  | [], [] => true
  | (k1, v1) :: as, (k2, v2) :: bs => k1 = k2 && jvalBeq v1 v2 && jvalFieldsBeq as bs
  | _, _ => false
end

namespace Router

def sameKey (t1 : String) (a1 : List (String × JVal)) (m : FPMatch) : Bool :=
  t1 = m.tool && jvalFieldsBeq a1 m.args

/-- One step of the dedup `Map`: first insertion fixes the position, a later
higher-confidence duplicate replaces the value in place. -/
def seenInsert : List FPMatch → FPMatch → List FPMatch
  | [], m => [m]
  | v :: rest, m =>
      if sameKey v.tool v.args m then
        (if Q.lt v.confidence m.confidence then m :: rest else v :: rest)
      else v :: seenInsert rest m

/-- `deduplicateMatches(matches)`: fold through the insertion-ordered map,
then sort by confidence, highest first. -/
def deduplicateMatches (ms : List FPMatch) : List FPMatch :=
  sortByConfDesc (ms.foldl seenInsert [])

/-- The routing decision: either a synthetic fast-path plan, or delegation to
`Planner.plan` (the model-backed path, abstracted as a marker — the claim
settled against this is about WHETHER the Planner is invoked). -/
inductive RouteOutcome where
  | fast (plan : PlanT)
  | deferredToPlanner

/-- `route(message, userId, context, history)`: fast path first; one or more
matches become a Plan with `needs_confirmation: false` and a reasoning line;
none means full delegation to the Planner. -/
def route (tools : List ToolMetadata) (message : String) : RouteOutcome :=
  let fastPathMatches := tryFastPath tools message
  if 0 < fastPathMatches.length then
    let uniqueMatches := deduplicateMatches fastPathMatches
    .fast
      { calls := uniqueMatches.map (fun m => { tool := m.tool, args := m.args })
        needs_confirmation := some false
        reasoning := some ("Fast path matches: " ++
          String.intercalate ", " (uniqueMatches.map (·.tool))) }
  else .deferredToPlanner

end Router

/-! # Claims

Concrete scenarios, helper lemmas, and one theorem per claim. -/

/-! ## Claim C1 — entity-catalog round trip for `projects` -/

/-- The remote server for the C1 scenario: one discovered resource
`projects://all` whose payload parses to the one-element array
`[{"id":"p1","projectName":"Aspen"}]`. -/
def cpWorld : McpWorld :=
  { listResourcesResult := .ok ["projects://all"]
    readResourceParsed := fun uri =>
      if uri = "projects://all" then
        some (.arr [.obj [("id", .str "p1"), ("projectName", .str "Aspen")]])
      else none }

def cpState : CtxState :=
  { userSessions := [], entityCache := [], lastEntityRefresh := 0 }

/-- Claim C1 is false on the code: refreshing the catalog from a `projects`
resource with payload `[{"id":"p1","projectName":"Aspen"}]` yields the record
`{id:"p1", name:"", projectName:"Aspen"}` — the `name` field is empty, not
"Aspen", because the derived-name lookup key is `resourceType + "Name"`,
i.e. `projectsName`, which the item does not carry (and `""` is not
"Aspen"). -/
theorem claim1_counterexample :
    (ContextProvider.refreshEntityCatalog cpWorld 1000000 cpState).1.entityCache =
      [("projects",
        [[("id", JVal.str "p1"), ("name", JVal.str ""), ("projectName", JVal.str "Aspen")]])]
    ∧ ("" : String) ≠ "Aspen" :=
  ⟨rfl, by decide⟩

/-- Claim C1 (amended): the scenario produces exactly the EntityRecord
`{id:"p1", name:"", projectName:"Aspen"}` — `id` from the `id` field, `name`
empty because the first-non-empty rule consults `name` / `projectsName`
(resource type + "Name") / `fileName` / `title`, none of which the item has,
and the original `projectName` field preserved verbatim alongside them. -/
theorem claim1_amended :
    (ContextProvider.refreshEntityCatalog cpWorld 1000000 cpState).1.entityCache.lookup
        "projects" =
      some [[("id", JVal.str "p1"), ("name", JVal.str ""), ("projectName", JVal.str "Aspen")]]
    ∧ ("projects" ++ "Name" : String) ≠ "projectName" :=
  ⟨rfl, by decide⟩

/-! ## Claim C2 — conversation history bounds -/

/-- A store with `maxMessages = 20`, `maxAge = 10` after
`addMessage("u", user, "hi")` at `t = 0`. -/
def convScenario : ConversationHistory :=
  ConversationHistory.addMessage
    { conversations := [], maxMessages := 20, maxAge := 10 } "u" .user "hi" 0

/-- Claim C2 fails on the code at this input: `getHistory("u")` at `t = 100`
returns the entry with age `100 > maxAge = 10`, because the source captures
the stored array reference before `cleanup` and `cleanup` only replaces the
map entry (the freshly trimmed state, also shown, no longer contains the
entry — it is the returned copy that is stale). -/
theorem claim2_getHistory_returns_expired_entry :
    (ConversationHistory.getHistory convScenario "u" 100).1 =
      [{ role := .user, content := "hi", timestamp := 0 }]
    ∧ ((ConversationHistory.getHistory convScenario "u" 100).2.conversations.lookup "u") =
        some []
    ∧ (10 : Int) < 100 - 0 :=
  ⟨rfl, rfl, by decide⟩

/-! ## Claim C10 — ToolCache.refresh is atomic on error -/

/-- Claim C10: when the remote `listTools` call fails, `refresh` propagates
the error and leaves the tool table untouched — `getTool` and `getAllTools`
observe the same snapshot after the failed refresh as before it (the table
is cleared and repopulated only after the remote call has succeeded). -/
theorem claim10_refresh_atomic_on_error :
    ∀ (tools : List (String × ToolMetadata)) (e : String) (name : String),
      ToolCache.refresh tools (.error e) = (tools, some e)
      ∧ ToolCache.getTool (ToolCache.refresh tools (.error e)).1 name =
          ToolCache.getTool tools name
      ∧ ToolCache.getAllTools (ToolCache.refresh tools (.error e)).1 =
          ToolCache.getAllTools tools :=
  fun _ _ _ => ⟨rfl, rfl, rfl⟩

/-! ## Claim C5 — needs_confirmation short-circuits execution -/

/-- Claim C5: a plan with `needs_confirmation = true` makes `execute` return
immediately with empty `results`, empty `errors`, `needsConfirmation = true`,
and an empty remote-call trace — no tool call is issued for any call of the
plan. -/
theorem claim5_confirmation_short_circuit :
    ∀ (tools : List (String × ToolMetadata))
      (callTool : String → List (String × JVal) → Except String JVal)
      (p : PlanT),
      p.needs_confirmation = some true →
      PlanExecutor.execute tools callTool p =
        ({ success := true, results := [], errors := [], needsConfirmation := true }, []) := by
  intro tools callTool p h
  simp [PlanExecutor.execute, h]

/-- Witness for C5 at a concrete two-call plan. -/
theorem claim5_witness :
    PlanExecutor.execute [] (fun _ _ => .error "unreachable")
      { calls := [{ tool := "a", args := [] }, { tool := "b", args := [] }]
        needs_confirmation := some true } =
      ({ success := true, results := [], errors := [], needsConfirmation := true }, []) :=
  claim5_confirmation_short_circuit [] (fun _ _ => .error "unreachable") _ rfl

/-! ## Claim C4 — partial validation failure -/

/-- Claim C4: for a non-confirmation plan of exactly two calls where the
first fails schema validation with a missing required argument and the second
validates and succeeds remotely, `execute` returns `success = false`, exactly
one error entry referencing the first call, exactly one result (the second
call's raw result), and the remote trace shows the first call was never sent
while the second was executed. -/
theorem claim4_validation_failure_continues :
    ∀ (tools : List (String × ToolMetadata))
      (callTool : String → List (String × JVal) → Except String JVal)
      (p : PlanT) (c1 c2 : PlanCall) (prop : String) (r : JVal),
      p.calls = [c1, c2] →
      p.needs_confirmation.getD false = false →
      PlanExecutor.validateCall tools c1 = some ("Missing required argument: " ++ prop) →
      PlanExecutor.validateCall tools c2 = none →
      callTool c2.tool c2.args = .ok r →
      PlanExecutor.execute tools callTool p =
        ({ success := false
           results := [r]
           errors := [(c1, "Missing required argument: " ++ prop)]
           needsConfirmation := false }, [(c2.tool, c2.args)]) := by
  intro tools callTool p c1 c2 prop r hcalls hconf h1 h2 h3
  simp [PlanExecutor.execute, hcalls, hconf, h1, h2, h3]

/-- The concrete catalog for the C4 witness: one tool `t` requiring a string
argument `q`. -/
def wit4Tools : List (String × ToolMetadata) :=
  [("t",
    { name := "t"
      toolDescription := ""
      inputSchema := { properties := some [("q", { type := some "string" })]
                       required := some ["q"] }
      examples := []
      safety := { read := true, write := false, destructive := false } })]

/-- Witness for C4: first call omits the required `q`, second passes it; the
remote oracle answers `"ok"`. -/
theorem claim4_witness :
    PlanExecutor.execute wit4Tools (fun _ _ => .ok (.str "ok"))
      { calls := [{ tool := "t", args := [] }, { tool := "t", args := [("q", .str "x")] }]
        needs_confirmation := none } =
      ({ success := false
         results := [JVal.str "ok"]
         errors := [({ tool := "t", args := [] }, "Missing required argument: q")]
         needsConfirmation := false }, [("t", [("q", JVal.str "x")])]) :=
  claim4_validation_failure_continues wit4Tools (fun _ _ => .ok (.str "ok"))
    { calls := [{ tool := "t", args := [] }, { tool := "t", args := [("q", .str "x")] }]
      needs_confirmation := none }
    { tool := "t", args := [] } { tool := "t", args := [("q", .str "x")] } "q" (.str "ok")
    rfl rfl rfl rfl rfl

/-! ## Claim C3 — missing credential -/

theorem discoverResources_trace (w : McpWorld) :
    (ContextProvider.discoverResources w).2 = [NetCall.listResources] := by
  unfold ContextProvider.discoverResources
  cases w.listResourcesResult <;> rfl

theorem refreshStep_no_modelFetch (w : McpWorld)
    (uris : List String) (acc : List (String × List EntityRecord) × List NetCall)
    (h : NetCall.modelFetch ∉ acc.2) :
    NetCall.modelFetch ∉ (uris.foldl (ContextProvider.refreshStep w) acc).2 := by
  induction uris generalizing acc with
  | nil => exact h
  | cons uri rest ih =>
      refine ih _ ?_
      unfold ContextProvider.refreshStep
      cases ContextProvider.extractResourceType uri with
      | none => exact h
      | some resourceType =>
          cases w.readResourceParsed uri <;>
            simp only [List.mem_append, List.mem_singleton] <;>
            rintro (hmem | hmem) <;> first | exact h hmem | exact NetCall.noConfusion hmem

theorem refreshEntityCatalog_no_modelFetch (w : McpWorld) (now : Int) (st : CtxState) :
    NetCall.modelFetch ∉ (ContextProvider.refreshEntityCatalog w now st).2 := by
  unfold ContextProvider.refreshEntityCatalog
  simp only [List.mem_append, discoverResources_trace]
  rintro (hmem | hmem)
  · simp only [List.mem_singleton] at hmem
    exact NetCall.noConfusion hmem
  · exact refreshStep_no_modelFetch w _ ([], []) (by simp) hmem

theorem getUserContext_no_modelFetch (w : McpWorld) (now : Int) (st : CtxState)
    (userId : String) :
    NetCall.modelFetch ∉ (ContextProvider.getUserContext w now st userId).2.2 := by
  unfold ContextProvider.getUserContext
  cases st.userSessions.lookup userId <;>
    dsimp only <;>
    split <;>
    first
      | exact refreshEntityCatalog_no_modelFetch w now _
      | simp

theorem getEntityCatalog_no_modelFetch (w : McpWorld) (now : Int) (st : CtxState) :
    NetCall.modelFetch ∉ (ContextProvider.getEntityCatalog w now st).2.2 := by
  unfold ContextProvider.getEntityCatalog
  split
  · exact refreshEntityCatalog_no_modelFetch w now st
  · simp

/-- Claim C3 (amended): with a missing or blank credential (both the
construction-time key and the environment fallback), `plan` throws the fatal
configuration error and never calls the model endpoint — but the
context/entity fetches that precede the check may still have issued network
calls to the tool server, so the error is raised before any MODEL API call
rather than before any network call whatsoever. The error is a throw, not a
retried operation: no `modelFetch` appears anywhere in the trace. -/
theorem claim3_amended :
    ∀ (cfg : PlannerConfig) (tools : List (String × ToolMetadata)) (w : McpWorld)
      (now : Int) (st : CtxState) (userId : String)
      (llmResult : Except String (Except Unit JVal)),
      jsTrim (effectiveApiKey cfg) = "" →
      (Planner.plan cfg tools w now st userId llmResult).1 = .error apiKeyError
      ∧ NetCall.modelFetch ∉ (Planner.plan cfg tools w now st userId llmResult).2.2 := by
  intro cfg tools w now st userId llmResult hkey
  unfold Planner.plan
  simp only [hkey, if_pos rfl]
  refine ⟨rfl, ?_⟩
  intro hmem
  rcases List.mem_append.mp hmem with hmem | hmem
  · exact getUserContext_no_modelFetch w now st userId hmem
  · exact getEntityCatalog_no_modelFetch w now _ hmem

/-- The C3 scenario: empty credential, stale entity cache (last refresh at 0,
read at `t = 1000000 > 300000`), remote `listResources` succeeding with an
empty resource list. -/
def plWorld : McpWorld :=
  { listResourcesResult := .ok [], readResourceParsed := fun _ => none }

def plCfg : PlannerConfig := { llmApiKey := "", envApiKey := "" }

def plState : CtxState :=
  { userSessions := [], entityCache := [], lastEntityRefresh := 0 }

/-- Claim C3 as stated is false on the code: with the credential missing,
`plan` does raise the configuration error, but the stale-cache refresh inside
`getUserContext` has already issued a `listResources` network call before the
check in `callLLM` runs — the pre-error network trace is non-empty. -/
theorem claim3_counterexample :
    (Planner.plan plCfg [] plWorld 1000000 plState "u1" (.ok (.error ()))).1 =
      .error apiKeyError
    ∧ (Planner.plan plCfg [] plWorld 1000000 plState "u1" (.ok (.error ()))).2.2 =
        [NetCall.listResources]
    ∧ ([NetCall.listResources] : List NetCall) ≠ [] :=
  ⟨rfl, rfl, by simp⟩

/-- Witness for the amended C3 at the concrete scenario. -/
theorem claim3_witness :
    (Planner.plan plCfg [] plWorld 1000000 plState "u1" (.ok (.error ()))).1 =
      .error apiKeyError
    ∧ NetCall.modelFetch ∉
        (Planner.plan plCfg [] plWorld 1000000 plState "u1" (.ok (.error ()))).2.2 :=
  claim3_amended plCfg [] plWorld 1000000 plState "u1" (.ok (.error ())) rfl

/-! ## Claim C6 — fallback on unparseable or invalid model responses -/

/-- Claim C6: with the credential present, any model response that fails
`JSON.parse`, or parses to a value failing plan validation (no `calls` array,
a call without a non-empty string `tool` or object `args`, or a tool missing
from the catalog), makes `plan` return (not throw) the fixed fallback plan,
whose `calls` is `[]` and whose `fallback_text` is a non-null string. -/
theorem claim6_fallback_plan :
    ∀ (cfg : PlannerConfig) (tools : List (String × ToolMetadata)) (w : McpWorld)
      (now : Int) (st : CtxState) (userId : String) (parsed : Except Unit JVal),
      jsTrim (effectiveApiKey cfg) ≠ "" →
      (∀ j, parsed = .ok j → ∃ e, Planner.validatePlan tools j = some e) →
      (Planner.plan cfg tools w now st userId (.ok parsed)).1 = .ok fallbackPlan
      ∧ jsGet fallbackPlan "calls" = some (.arr [])
      ∧ ∃ s, jsGet fallbackPlan "fallback_text" = some (.str s) := by
  intro cfg tools w now st userId parsed hkey hval
  refine ⟨?_, rfl, _, rfl⟩
  unfold Planner.plan
  simp only [if_neg hkey]
  cases parsed with
  | error e => rfl
  | ok j =>
      obtain ⟨e, he⟩ := hval j rfl
      simp [he]

/-- Witness for C6: a response that parses to the JSON string `"nope"`, which
has no `calls` array, at a present credential. -/
theorem claim6_witness :
    (Planner.plan { llmApiKey := "sk-key", envApiKey := "" } [] plWorld 0 plState "u1"
        (.ok (.ok (.str "nope")))).1 = .ok fallbackPlan
    ∧ jsGet fallbackPlan "calls" = some (.arr [])
    ∧ ∃ s, jsGet fallbackPlan "fallback_text" = some (.str s) :=
  claim6_fallback_plan { llmApiKey := "sk-key", envApiKey := "" } [] plWorld 0 plState "u1"
    (.ok (.str "nope")) (by decide)
    (fun j h => by cases h; exact ⟨"Plan must have calls array", rfl⟩)

/-! ## Claim C7 — threshold selection and widening -/

theorem insertDesc_perm (m : Router.FPMatch) (l : List Router.FPMatch) :
    (Router.insertDesc m l).Perm (m :: l) := by
  induction l with
  | nil => exact List.Perm.refl _
  | cons h t ih =>
      unfold Router.insertDesc
      split
      · exact (ih.cons h).trans (List.Perm.swap m h t)
      · exact List.Perm.refl _

theorem sortByConfDesc_foldl_perm (l acc : List Router.FPMatch) :
    (l.foldl (fun a m => Router.insertDesc m a) acc).Perm (l ++ acc) := by
  induction l generalizing acc with
  | nil => simp
  | cons a t ih =>
      simp only [List.foldl_cons, List.cons_append]
      refine (ih (Router.insertDesc a acc)).trans ?_
      refine (List.Perm.append_left t (insertDesc_perm a acc)).trans ?_
      exact List.perm_middle

theorem sortByConfDesc_perm (l : List Router.FPMatch) :
    (Router.sortByConfDesc l).Perm l := by
  have h := sortByConfDesc_foldl_perm l []
  simpa [Router.sortByConfDesc] using h

/-- A confidence at or above 0.6 is at or above 0.5 (cross-multiplied). -/
theorem qle_half_of_qle_threeFifths (c : Q) :
    Q.le (Q.ratio 3 5) c = true → Q.le (Q.ratio 1 2) c = true := by
  have h35 : Q.ratio 3 5 = ⟨3, 5⟩ := rfl
  have h12 : Q.ratio 1 2 = ⟨1, 2⟩ := rfl
  rw [h35, h12]
  simp only [Q.le, decide_eq_true_eq]
  intro h
  omega

/-- Claim C7: the fast path's final selection is exactly the pooled
candidates at or above 0.5, widened to all pooled candidates at or above 0.4
when at least one (surviving) candidate reaches 0.6 (a candidate at or above
0.6 always survives the 0.5 filter, so the two phrasings coincide), as a
permutation (the code re-orders by descending confidence); and when no pooled
candidate reaches 0.5 the fast path yields the empty list and the Router
delegates to the Planner. -/
theorem claim7_threshold_selection :
    (∀ pool : List Router.FPMatch,
      (Router.selectMatches pool).Perm
        (if pool.any (fun x => Q.le (Q.ratio 3 5) x.confidence) then
          pool.filter (fun m => Q.le (Q.ratio 2 5) m.confidence)
        else
          pool.filter (fun m => Q.le (Q.ratio 1 2) m.confidence)))
    ∧ (∀ (tools : List ToolMetadata) (message : String),
        (Router.collectMatches tools message).all
            (fun m => !Q.le (Q.ratio 1 2) m.confidence) = true →
        Router.tryFastPath tools message = []
        ∧ Router.route tools message = .deferredToPlanner) := by
  constructor
  · intro pool
    unfold Router.selectMatches
    by_cases hnil : pool.length = 0
    · rw [if_pos hnil]
      rw [List.length_eq_zero] at hnil
      subst hnil
      simp
    · rw [if_neg hnil]
      have hperm := sortByConfDesc_perm pool
      by_cases hA : pool.any (fun x => Q.le (Q.ratio 3 5) x.confidence) = true
      · rw [if_pos hA]
        obtain ⟨x, hxmem, hx⟩ := List.any_eq_true.mp hA
        have hxval : x ∈ (Router.sortByConfDesc pool).filter
            (fun m => Q.le (Q.ratio 1 2) m.confidence) := by
          rw [List.mem_filter]
          exact ⟨hperm.mem_iff.mpr hxmem, qle_half_of_qle_threeFifths x.confidence hx⟩
        have hcond : 0 < ((Router.sortByConfDesc pool).filter
              (fun m => Q.le (Q.ratio 1 2) m.confidence)).length
            ∧ ((Router.sortByConfDesc pool).filter
              (fun m => Q.le (Q.ratio 1 2) m.confidence)).any
                (fun m => Q.le (Q.ratio 3 5) m.confidence) = true := by
          constructor
          · exact List.length_pos.mpr (List.ne_nil_of_mem hxval)
          · exact List.any_eq_true.mpr ⟨x, hxval, hx⟩
        rw [if_pos (by simp [hcond.1, hcond.2])]
        exact hperm.filter _
      · rw [if_neg hA]
        have hAf : pool.any (fun x => Q.le (Q.ratio 3 5) x.confidence) = false := by
          simpa using hA
        have hany : ((Router.sortByConfDesc pool).filter
            (fun m => Q.le (Q.ratio 1 2) m.confidence)).any
              (fun m => Q.le (Q.ratio 3 5) m.confidence) = false := by
          rw [Bool.eq_false_iff]
          intro habs
          obtain ⟨x, hxmem, hx⟩ := List.any_eq_true.mp habs
          rw [List.mem_filter] at hxmem
          have : pool.any (fun x => Q.le (Q.ratio 3 5) x.confidence) = true :=
            List.any_eq_true.mpr ⟨x, hperm.mem_iff.mp hxmem.1, hx⟩
          rw [hAf] at this
          exact Bool.noConfusion this
        rw [if_neg (by simp [hany])]
        exact hperm.filter _
  · intro tools message hall
    have hsel : Router.selectMatches (Router.collectMatches tools message) = [] := by
      unfold Router.selectMatches
      by_cases hnil : (Router.collectMatches tools message).length = 0
      · rw [if_pos hnil]
      · rw [if_neg hnil]
        have hperm := sortByConfDesc_perm (Router.collectMatches tools message)
        have hfil : (Router.sortByConfDesc (Router.collectMatches tools message)).filter
            (fun m => Q.le (Q.ratio 1 2) m.confidence) = [] := by
          rw [List.filter_eq_nil_iff]
          intro m hm
          have := List.all_eq_true.mp hall m (hperm.mem_iff.mp hm)
          simpa using this
        simp only [hfil]
        simp
    have hfp : Router.tryFastPath tools message = [] := hsel
    refine ⟨hfp, ?_⟩
    unfold Router.route
    simp [hfp]

/-- A pool with one strong (0.7) and one weak (0.45) candidate, used in the
C7 witness. -/
def demoPool : List Router.FPMatch :=
  [ { tool := "a", args := [], confidence := ⟨7, 10⟩ },
    { tool := "b", args := [], confidence := ⟨9, 20⟩ } ]

/-- A tool that matches nothing in the C7 witness message. -/
def demoTool : ToolMetadata := ToolCache.buildMetadata { name := "inspect" }

/-- Witness for C7: the widening case on a concrete pool, and the
empty-selection deferral on a concrete catalog and message. -/
theorem claim7_witness :
    (Router.selectMatches demoPool).Perm
      (if demoPool.any (fun x => Q.le (Q.ratio 3 5) x.confidence) then
        demoPool.filter (fun m => Q.le (Q.ratio 2 5) m.confidence)
      else
        demoPool.filter (fun m => Q.le (Q.ratio 1 2) m.confidence))
    ∧ (Router.tryFastPath [demoTool] "hello there" = []
       ∧ Router.route [demoTool] "hello there" = .deferredToPlanner) :=
  ⟨claim7_threshold_selection.1 demoPool,
   claim7_threshold_selection.2 [demoTool] "hello there" rfl⟩

/-! ## Claim C8 — the document-keyword guard -/

theorem exampleCandidate_tool (message lower : String) (tool : ToolMetadata)
    (ex : ExampleT) (m : Router.FPMatch)
    (hm : m ∈ Router.exampleCandidate message lower tool ex) :
    m.tool = tool.name := by
  simp only [Router.exampleCandidate] at hm
  repeat' split at hm
  all_goals
    first
      | exact absurd hm (List.not_mem_nil m)
      | (rw [List.mem_singleton] at hm; rw [hm])

theorem toolMatches_tool (message lower : String) (isDoc : Bool) (tool : ToolMetadata)
    (m : Router.FPMatch) (hm : m ∈ Router.toolMatches message lower isDoc tool) :
    m.tool = tool.name := by
  have hex : ∀ x ∈ tool.examples.flatMap (Router.exampleCandidate message lower tool),
      Router.FPMatch.tool x = tool.name := by
    intro x hx
    obtain ⟨ex, _, hmem⟩ := List.mem_flatMap.mp hx
    exact exampleCandidate_tool message lower tool ex x hmem
  simp only [Router.toolMatches] at hm
  repeat' split at hm
  all_goals
    first
      | exact absurd hm (List.not_mem_nil m)
      | exact hex m hm
      | (rcases List.mem_append.mp hm with hm | hm <;>
          first
            | exact hex m hm
            | (rw [List.mem_singleton] at hm; rw [hm])
            | (rcases List.mem_append.mp hm with hm | hm <;>
                first
                  | exact hex m hm
                  | (rw [List.mem_singleton] at hm; rw [hm])))

theorem toolMatches_send_document_guard (message lower : String) (tool : ToolMetadata)
    (hname : tool.name = "send_document") :
    Router.toolMatches message lower false tool = [] := by
  unfold Router.toolMatches
  rw [if_pos]
  simp [hname]

/-- The `send_document` tool of test scenarios 3 and 4 of the specification,
as delivered by a ToolCache refresh: the remote raw tool declares a single
required string property `query`, and `generateExamples` attaches the canned
document examples (including `send me the ecp checklist` /
`{query: "ecp checklist"}`). -/
def sdRaw : RawTool :=
  { name := "send_document"
    rawDescription := some ""
    rawSchema := some { properties := some [("query", { type := some "string" })]
                        required := some ["query"] } }

def sdTable : List (String × ToolMetadata) := (ToolCache.refresh [] (.ok [sdRaw])).1

def sdTools : List ToolMetadata := ToolCache.getAllTools sdTable

/-- Claim C8: a message containing none of the document keywords (checked on
the lowercased, trimmed message) can never produce a fast-path candidate for
`send_document`, whatever the catalog; and concretely, "what's the capital of
France" against the catalog holding only `send_document` yields an empty
match list and the Router defers to the Planner. -/
theorem claim8_document_guard :
    (∀ (tools : List ToolMetadata) (message : String),
        Router.documentKeywords.any
            (fun kw => jsIncludes (jsTrim (jsToLower message)) kw) = false →
        (Router.collectMatches tools message).all
            (fun m => !(m.tool == "send_document")) = true)
    ∧ Router.tryFastPath sdTools "what\x27s the capital of France" = []
    ∧ Router.route sdTools "what\x27s the capital of France" = .deferredToPlanner := by
  refine ⟨?_, rfl, rfl⟩
  intro tools message hdoc
  rw [List.all_eq_true]
  intro m hm
  simp only [Router.collectMatches] at hm
  rw [hdoc] at hm
  obtain ⟨tool, _, hmem⟩ := List.mem_flatMap.mp hm
  by_cases hname : tool.name = "send_document"
  · rw [toolMatches_send_document_guard _ _ _ hname] at hmem
    exact absurd hmem (List.not_mem_nil m)
  · have htool := toolMatches_tool _ _ _ _ _ hmem
    simp [htool, hname]

/-- Witness for C8's universal part at a concrete keyword-free message. -/
theorem claim8_witness :
    (Router.collectMatches sdTools "hello there").all
        (fun m => !(m.tool == "send_document")) = true :=
  claim8_document_guard.1 sdTools "hello there" rfl

/-! ## Claim C9 — "send me the ecp checklist" -/

/-- Claim C9: against the catalog holding `send_document` (with its generated
examples, including `{query: "send me the ecp checklist", args: {query: "ecp
checklist"}}`), the message "send me the ecp checklist" makes the fast path
emit the candidate `{tool: send_document, args: {query: "ecp checklist"},
confidence: 4/4 = 1.0}` (all four example tokens longer than two characters
match bidirectionally), and the Router selects it — its call leads the
synthetic plan's calls — without invoking the Planner. (A second,
lower-confidence 0.7 name-keyword candidate with verb-extracted args rides
along, as the widening rule admits.) -/
theorem claim9_ecp_checklist_fast_path :
    ({ tool := "send_document", args := [("query", JVal.str "ecp checklist")],
       confidence := ⟨1, 1⟩ } : Router.FPMatch)
        ∈ Router.collectMatches sdTools "send me the ecp checklist"
    ∧ Router.route sdTools "send me the ecp checklist" =
        .fast
          { calls := [ { tool := "send_document", args := [("query", JVal.str "ecp checklist")] },
                       { tool := "send_document", args := [("query", JVal.str "me the ecp checklist")] } ]
            needs_confirmation := some false
            reasoning := some "Fast path matches: send_document, send_document" } := by
  constructor
  · have h : Router.collectMatches sdTools "send me the ecp checklist" =
        [ { tool := "send_document", args := [("query", JVal.str "ecp checklist")],
            confidence := ⟨1, 1⟩ },
          { tool := "send_document", args := [("query", JVal.str "me the ecp checklist")],
            confidence := ⟨7, 10⟩ } ] := rfl
    rw [h]
    exact List.mem_cons_self _ _
  · rfl
